import Mathlib

/-!
# Verification of the `@howezt/telemetry` configuration and span engine

Shallow embedding of the core of the `Howezt/telemetry` repository:

* `src/endpoints.ts` — URL normalisation and per-signal OTLP endpoint
  resolution (`normalizeEndpoint`, `readEnv`, `resolveSignalEndpoint`);
* `src/sdk.ts`, `src/registry.ts`, `src/noop.ts` — adapter registry and the
  never-throwing `initSDK`;
* `src/with-trace.ts` — the span engine `withTrace`;
* `src/runtimes/cloudflare/workflow.ts` — durable-workflow instrumentation
  (`createTracedStep`, `instrumentWorkflow`, `injectTraceparent`,
  `extractTraceparent`);
* `src/resource.ts` — `parseEnvResourceAttributes` and `buildResource`.

JavaScript strings are modelled as Lean `String`s, JS objects as association
lists with unique keys, thrown values as an explicit `Except`/inductive error
type, and promises as values carrying their eventual settlement.  Ambient
inputs of the host (process environment, the active OpenTelemetry context,
whether stderr is a TTY) are explicit parameters of the embedded functions.
-/

namespace Telemetry

/-! ## JS string primitives

The TypeScript source uses `trim`, `replace(/\/+$/,"")`, the case-insensitive
regex `^https?:\/\//`, `split(",")`, `indexOf("=")`, `slice` and
`decodeURIComponent`.  They are modelled here on `List Char` so that all
definitions reduce in the kernel. -/

/-- Characters treated as whitespace by the model of JS `String.prototype.trim`
(space, tab, CR, LF — `Char.isWhitespace`). -/
def isWsChar (c : Char) : Bool := c.isWhitespace

/-- Remove leading and trailing whitespace from a character list. -/
def trimChars (l : List Char) : List Char :=
  ((l.dropWhile isWsChar).reverse.dropWhile isWsChar).reverse

/-- Model of JS `url.trim()`. -/
def jsTrim (s : String) : String := ⟨trimChars s.data⟩

/-- `beginsWith pat l` is `true` iff `pat` is an initial segment of `l`. -/
def beginsWith : List Char → List Char → Bool
  | [], _ => true
  | _ :: _, [] => false
  | p :: ps, c :: cs => p = c && beginsWith ps cs

/-- Model of the case-insensitive regex test `/^https?:\/\//i.test(s)`. -/
def hasHttpScheme (s : String) : Bool :=
  beginsWith "http://".data (s.data.map Char.toLower) ||
  beginsWith "https://".data (s.data.map Char.toLower)

/-- Drop the trailing run of `'/'` characters: JS `s.replace(/\/+$/, "")`. -/
def dropTrailingSlashesChars (l : List Char) : List Char :=
  (l.reverse.dropWhile (fun c => c = '/')).reverse

/-- Model of `s.replace(/\/+$/, "")` on `String`. -/
def dropTrailingSlashes (s : String) : String := ⟨dropTrailingSlashesChars s.data⟩

/-! ## `src/endpoints.ts` -/

/-- Embedding of `normalizeEndpoint` (`src/endpoints.ts` lines 11–18):
empty or whitespace-only input (and JS-falsy `""`/`undefined` input, both of
which trim to `""`) gives `undefined`; a missing `http://`/`https://` scheme
gets `https://` prepended; trailing slashes are stripped. -/
def normalizeEndpoint (url : String) : Option String :=
  if jsTrim url = "" then none
  else
    let normalized := jsTrim url
    let normalized := if hasHttpScheme normalized then normalized
                      else "https://" ++ normalized
    some (dropTrailingSlashes normalized)

/-- JS string-map lookup: `m[key]` on a plain object with string values. -/
def lookupStr (m : List (String × String)) (key : String) : Option String :=
  (m.find? (fun p => p.1 = key)).map (·.2)

/-- Truthiness of a `string | undefined` value: `undefined` and `""` are
falsy, every other string is truthy. -/
def strTruthy : Option String → Bool
  | none => false
  | some s => !(s = "")

/-- OTLP signal identifiers (`OtlpSignal` in `src/types.ts`). -/
inductive OtlpSignal where
  | traces
  | metrics
  | logs
deriving DecidableEq, Repr

/-- `SIGNAL_SUFFIX` from `src/endpoints.ts` lines 34–38. -/
def signalSuffix : OtlpSignal → String
  | .traces => "/v1/traces"
  | .metrics => "/v1/metrics"
  | .logs => "/v1/logs"

/-- The per-signal environment-variable name
`OTEL_EXPORTER_OTLP_${signal.toUpperCase()}_ENDPOINT`. -/
def perSignalEnvKey : OtlpSignal → String
  | .traces => "OTEL_EXPORTER_OTLP_TRACES_ENDPOINT"
  | .metrics => "OTEL_EXPORTER_OTLP_METRICS_ENDPOINT"
  | .logs => "OTEL_EXPORTER_OTLP_LOGS_ENDPOINT"

/-- `SDKConfig` from `src/types.ts` (the fields the embedded core reads).
`serviceName` is `Option` because runtime callers reach `buildResource` with
it absent and the source guards with `config.serviceName != null`. -/
structure SDKConfig where
  serviceName : Option String := none
  runtime : Option String := none
  exporterEndpoint : Option String := none
  exporterHeaders : List (String × String) := []
  resourceAttributes : List (String × String) := []
  metricsExporterEndpoint : Option String := none
  metricsExportIntervalMs : Option Nat := none
  tracesExporterEndpoint : Option String := none
  logsExporterEndpoint : Option String := none
  env : Option (List (String × String)) := none
deriving Repr

/-- Embedding of `readEnv` (`src/endpoints.ts` lines 24–32).  The process
environment is an explicit parameter: `none` models a host where
`typeof process === "undefined"`. -/
def readEnv (key : String) (config : SDKConfig)
    (procEnv : Option (List (String × String))) : Option String :=
  match config.env with
  | some m => lookupStr m key
  | none =>
    match procEnv with
    | some p => lookupStr p key
    | none => none

/-- The dynamic config lookup `config[`${signal}ExporterEndpoint`]`
(`src/endpoints.ts` line 71–72). -/
def perSignalConfigField (signal : OtlpSignal) (config : SDKConfig) : Option String :=
  match signal with
  | .traces => config.tracesExporterEndpoint
  | .metrics => config.metricsExporterEndpoint
  | .logs => config.logsExporterEndpoint

/-- Embedding of `resolveSignalEndpoint` (`src/endpoints.ts` lines 50–90),
including the legacy `metricsExporterEndpoint` check that precedes the base
config tier. -/
def resolveSignalEndpoint (signal : OtlpSignal) (config : SDKConfig)
    (procEnv : Option (List (String × String))) : Option String :=
  let suffix := signalSuffix signal
  let perSignalEnv := readEnv (perSignalEnvKey signal) config procEnv
  if strTruthy perSignalEnv then normalizeEndpoint (perSignalEnv.getD "")
  else
    let baseEnv := readEnv "OTEL_EXPORTER_OTLP_ENDPOINT" config procEnv
    if strTruthy baseEnv then
      match normalizeEndpoint (baseEnv.getD "") with
      | some base => some (base ++ suffix)
      | none => none
    else
      let perSignalConfig := perSignalConfigField signal config
      if strTruthy perSignalConfig then normalizeEndpoint (perSignalConfig.getD "")
      else if signal = .metrics && strTruthy config.metricsExporterEndpoint then
        normalizeEndpoint (config.metricsExporterEndpoint.getD "")
      else if strTruthy config.exporterEndpoint then
        match normalizeEndpoint (config.exporterEndpoint.getD "") with
        | some base => some (base ++ suffix)
        | none => none
      else none

/-! ### Lemmas about the string primitives -/

theorem dropWhile_dropWhile_self (p : Char → Bool) (l : List Char) :
    (l.dropWhile p).dropWhile p = l.dropWhile p := by
  induction l with
  | nil => simp
  | cons a t ih =>
    by_cases h : p a
    · simpa [List.dropWhile_cons, h] using ih
    · simp [List.dropWhile_cons, h]

theorem dropTrailingSlashesChars_idem (l : List Char) :
    dropTrailingSlashesChars (dropTrailingSlashesChars l) = dropTrailingSlashesChars l := by
  unfold dropTrailingSlashesChars
  rw [List.reverse_reverse, dropWhile_dropWhile_self]

theorem dropTrailingSlashes_idem (s : String) :
    dropTrailingSlashes (dropTrailingSlashes s) = dropTrailingSlashes s := by
  unfold dropTrailingSlashes
  exact congrArg String.mk (dropTrailingSlashesChars_idem s.data)

theorem hasHttpScheme_empty_false : hasHttpScheme "" = false := by decide

/-- Any value produced by `normalizeEndpoint` has its trailing slashes
already stripped. -/
theorem normalizeEndpoint_no_trailing_slash (x r : String)
    (h : normalizeEndpoint x = some r) : dropTrailingSlashes r = r := by
  unfold normalizeEndpoint at h
  by_cases hx : jsTrim x = ""
  · simp [hx] at h
  · simp only [hx, if_neg, if_false] at h
    have := Option.some.inj h
    rw [← this, dropTrailingSlashes_idem]

/-! ### Claim C7 — idempotence of `normalizeEndpoint` -/

/-- Claim C7 counterexample: `normalizeEndpoint` is not idempotent on every
non-empty input.  On `"/"` the first application prepends `https://` and then
strips the whole trailing slash run — including the scheme's own slashes —
yielding `"https:"`; the second application no longer sees a scheme and
prepends another `https://`. -/
theorem normalizeEndpoint_not_idempotent_on_slash :
    (normalizeEndpoint "/").bind normalizeEndpoint ≠ normalizeEndpoint "/" ∧
    normalizeEndpoint "/" = some "https:" ∧
    (normalizeEndpoint "/").bind normalizeEndpoint = some "https://https:" := by
  refine ⟨?_, by decide, by decide⟩
  decide

/-- Claim C7 (amended): `normalizeEndpoint` trims whitespace, returns absent
for empty/whitespace-only input, prepends `https://` when the scheme is
missing and strips all trailing slashes, and it is idempotent on every input
whose normalized value still carries an `http://`/`https://` scheme and no
edge whitespace (slash-stripping can expose trailing whitespace, as in
`"a /"`).  Degenerate inputs such as `"/"`, whose post-scheme content is all
slashes, renormalize differently. -/
theorem normalizeEndpoint_idempotent (x r : String)
    (h1 : normalizeEndpoint x = some r)
    (h2 : jsTrim r = r) (h3 : hasHttpScheme r = true) :
    normalizeEndpoint r = some r := by
  have hslash : dropTrailingSlashes r = r := normalizeEndpoint_no_trailing_slash x r h1
  have hne : r ≠ "" := by
    intro hcontra
    rw [hcontra] at h3
    exact absurd h3 (by decide)
  unfold normalizeEndpoint
  rw [h2]
  simp only [if_neg hne, h3, if_true, hslash]

/-- Claim C7 witness: the amended idempotence theorem applied at the concrete
input `"otel.example.com"`, whose normalized form is
`"https://otel.example.com"`. -/
theorem normalizeEndpoint_idempotent_witness :
    normalizeEndpoint "https://otel.example.com" = some "https://otel.example.com" :=
  normalizeEndpoint_idempotent "otel.example.com" "https://otel.example.com"
    (by decide) (by decide) (by decide)

/-! ### Claim C2 — four-tier endpoint precedence -/

theorem readEnv_of_env_some (key : String) (config : SDKConfig)
    (m : List (String × String)) (h : config.env = some m)
    (procEnv : Option (List (String × String))) :
    readEnv key config procEnv = lookupStr m key := by
  unfold readEnv
  rw [h]

/-- Claim C2: `resolveSignalEndpoint` obeys strict four-tier precedence with
first match winning — (1) the signal-specific env var, (2) the base env var
plus the signal's fixed suffix, (3) the signal-specific config field (for
metrics this field is the legacy `metricsExporterEndpoint`, accepted at this
tier), (4) the base config field plus suffix — and resolves to `none`
(disabled, not an error) when no source is set.  Each clause holds for every
signal, config and process environment, whatever lower-precedence sources are
set simultaneously. -/
theorem resolveSignalEndpoint_precedence (signal : OtlpSignal) (config : SDKConfig)
    (procEnv : Option (List (String × String))) :
    (strTruthy (readEnv (perSignalEnvKey signal) config procEnv) = true →
      resolveSignalEndpoint signal config procEnv
        = normalizeEndpoint ((readEnv (perSignalEnvKey signal) config procEnv).getD "")) ∧
    (strTruthy (readEnv (perSignalEnvKey signal) config procEnv) = false →
     strTruthy (readEnv "OTEL_EXPORTER_OTLP_ENDPOINT" config procEnv) = true →
      resolveSignalEndpoint signal config procEnv
        = (normalizeEndpoint ((readEnv "OTEL_EXPORTER_OTLP_ENDPOINT" config procEnv).getD "")).map
            (fun base => base ++ signalSuffix signal)) ∧
    (strTruthy (readEnv (perSignalEnvKey signal) config procEnv) = false →
     strTruthy (readEnv "OTEL_EXPORTER_OTLP_ENDPOINT" config procEnv) = false →
     strTruthy (perSignalConfigField signal config) = true →
      resolveSignalEndpoint signal config procEnv
        = normalizeEndpoint ((perSignalConfigField signal config).getD "")) ∧
    (perSignalConfigField .metrics config = config.metricsExporterEndpoint) ∧
    (strTruthy (readEnv (perSignalEnvKey signal) config procEnv) = false →
     strTruthy (readEnv "OTEL_EXPORTER_OTLP_ENDPOINT" config procEnv) = false →
     strTruthy (perSignalConfigField signal config) = false →
     strTruthy config.exporterEndpoint = true →
      resolveSignalEndpoint signal config procEnv
        = (normalizeEndpoint (config.exporterEndpoint.getD "")).map
            (fun base => base ++ signalSuffix signal)) ∧
    (strTruthy (readEnv (perSignalEnvKey signal) config procEnv) = false →
     strTruthy (readEnv "OTEL_EXPORTER_OTLP_ENDPOINT" config procEnv) = false →
     strTruthy (perSignalConfigField signal config) = false →
     strTruthy config.exporterEndpoint = false →
      resolveSignalEndpoint signal config procEnv = none) := by
  refine ⟨?_, ?_, ?_, rfl, ?_, ?_⟩
  · intro h1
    simp only [resolveSignalEndpoint, h1, if_true]
  · intro h1 h2
    simp only [resolveSignalEndpoint, h1, h2, Bool.false_eq_true, if_false, if_true]
    cases normalizeEndpoint ((readEnv "OTEL_EXPORTER_OTLP_ENDPOINT" config procEnv).getD "") <;> simp
  · intro h1 h2 h3
    simp only [resolveSignalEndpoint, h1, h2, h3, Bool.false_eq_true, if_false, if_true]
  · intro h1 h2 h3 h4
    have hleg : (decide (signal = .metrics) && strTruthy config.metricsExporterEndpoint) = false := by
      cases signal <;> simp_all [perSignalConfigField]
    simp only [resolveSignalEndpoint, h1, h2, h3, h4, hleg, Bool.false_eq_true, if_false, if_true]
    cases normalizeEndpoint (config.exporterEndpoint.getD "") <;> simp
  · intro h1 h2 h3 h4
    have hleg : (decide (signal = .metrics) && strTruthy config.metricsExporterEndpoint) = false := by
      cases signal <;> simp_all [perSignalConfigField]
    simp only [resolveSignalEndpoint, h1, h2, h3, h4, hleg, Bool.false_eq_true, if_false]

/-- Claim C2 witness: with a signal-specific `traces` env var and a base
config URL set simultaneously, resolution returns the env var's normalized
value (`http://env.example`), not the config's. -/
theorem resolveSignalEndpoint_precedence_witness :
    resolveSignalEndpoint .traces
        { exporterEndpoint := some "config.example",
          env := some [("OTEL_EXPORTER_OTLP_TRACES_ENDPOINT", "http://env.example")] } none
      = normalizeEndpoint ((readEnv (perSignalEnvKey .traces)
          { exporterEndpoint := some "config.example",
            env := some [("OTEL_EXPORTER_OTLP_TRACES_ENDPOINT", "http://env.example")] } none).getD "") ∧
    resolveSignalEndpoint .traces
        { exporterEndpoint := some "config.example",
          env := some [("OTEL_EXPORTER_OTLP_TRACES_ENDPOINT", "http://env.example")] } none
      = some "http://env.example" :=
  ⟨(resolveSignalEndpoint_precedence .traces
      { exporterEndpoint := some "config.example",
        env := some [("OTEL_EXPORTER_OTLP_TRACES_ENDPOINT", "http://env.example")] } none).1
      (by decide),
   by decide⟩

/-! ### Claim C10 — explicit env map makes resolution hermetic -/

/-- Claim C10: when the config supplies an explicit env map, endpoint
resolution is completely independent of the process environment — two runs
under arbitrarily different process environments return the identical result,
even for keys absent from the map. -/
theorem resolveSignalEndpoint_env_hermetic (signal : OtlpSignal) (config : SDKConfig)
    (m : List (String × String)) (h : config.env = some m)
    (p1 p2 : Option (List (String × String))) :
    resolveSignalEndpoint signal config p1 = resolveSignalEndpoint signal config p2 := by
  simp only [resolveSignalEndpoint, readEnv, h]

/-- Claim C10 witness: a config with an (empty) explicit env map resolves
`traces` identically under no process env and under a process env that sets
the base endpoint variable; the queried keys are absent from the map, yet do
not fall back to the process environment. -/
theorem resolveSignalEndpoint_env_hermetic_witness :
    resolveSignalEndpoint .traces { env := some [] } none
      = resolveSignalEndpoint .traces { env := some [] }
          (some [("OTEL_EXPORTER_OTLP_ENDPOINT", "http://proc.example")]) ∧
    resolveSignalEndpoint .traces { env := some [] }
        (some [("OTEL_EXPORTER_OTLP_ENDPOINT", "http://proc.example")]) = none :=
  ⟨resolveSignalEndpoint_env_hermetic .traces { env := some [] } [] rfl none
      (some [("OTEL_EXPORTER_OTLP_ENDPOINT", "http://proc.example")]),
   by decide⟩

/-! ## `src/noop.ts`, `src/registry.ts` and `src/sdk.ts`

Adapters are modelled with effectful `detect`/`setup` capabilities: a thrown
JavaScript exception is an `Except.error` carrying its message.  `initSDK`'s
`try`/`catch` is the `match` that converts any error into `noopSDKResult`. -/

/-- A tracer-provider reference.  `globalProvider` models
`trace.getTracerProvider()` (the global registered provider) used by the
no-op result; adapters return their own provider. -/
inductive TracerProviderRef where
  | globalProvider
  | adapterProvider (name : String)
deriving DecidableEq, Repr

/-- A structured-logger reference; `noopLogger` is the logger from
`src/noop.ts` that silently discards all messages. -/
inductive LoggerRef where
  | noopLogger
  | realLogger (name : String)
deriving DecidableEq, Repr

/-- An async lifecycle operation.  `immediate` models `async () => {}` — a
promise that resolves immediately; `deferred n` models an operation that
performs `n` pending asynchronous steps before resolving. -/
inductive LifecycleOp where
  | immediate
  | deferred (steps : Nat)
deriving DecidableEq, Repr

/-- `SDKResult` from `src/types.ts`: tracer provider, always-present logger,
and the two lifecycle operations.  (The optional meter/logger providers play
no role in the claims about `initSDK` and are omitted.) -/
structure SDKResult where
  provider : TracerProviderRef
  logger : LoggerRef
  shutdown : LifecycleOp
  forceFlush : LifecycleOp
deriving DecidableEq, Repr

/-- `noopSDKResult` from `src/noop.ts` lines 13–20. -/
def noopSDKResult : SDKResult :=
  { provider := .globalProvider
    logger := .noopLogger
    shutdown := .immediate
    forceFlush := .immediate }

/-- `RuntimeAdapter` from `src/types.ts`; `detect` and `setup` may throw. -/
structure RuntimeAdapter where
  name : String
  detect : Except String Bool
  setup : SDKConfig → Except String SDKResult

/-- The private `noopAdapter` from `src/registry.ts` lines 6–10. -/
def noopAdapter : RuntimeAdapter :=
  { name := "noop"
    detect := .ok false
    setup := fun _ => .ok noopSDKResult }

/-- The auto-detection loop of `resolve` (`src/registry.ts` lines 51–57): the
first adapter whose `detect()` returns `true` wins; an exception thrown by a
`detect()` propagates; an exhausted list yields the no-op adapter. -/
def detectLoop : List RuntimeAdapter → Except String RuntimeAdapter
  | [] => .ok noopAdapter
  | a :: rest =>
    match a.detect with
    | .error e => .error e
    | .ok true => .ok a
    | .ok false => detectLoop rest

/-- Embedding of `resolve` (`src/registry.ts` lines 45–58) over an explicit
registry list.  A JS-truthy (non-empty) `runtimeName` triggers the
by-name linear scan with the no-op fallback. -/
def resolveAdapter (adapters : List RuntimeAdapter) (runtimeName : Option String) :
    Except String RuntimeAdapter :=
  if strTruthy runtimeName then
    .ok (((adapters.find? (fun a => a.name = runtimeName.getD "")).getD noopAdapter))
  else detectLoop adapters

/-- The body of `initSDK`'s `try` block (`src/sdk.ts` lines 25–26): resolve
an adapter, then run its `setup`. -/
def initSDKCore (adapters : List RuntimeAdapter) (config : SDKConfig) :
    Except String SDKResult := do
  let adapter ← resolveAdapter adapters config.runtime
  adapter.setup config

/-- Embedding of `initSDK` (`src/sdk.ts` lines 23–30): the `catch` converts
any exception from resolution or setup into `noopSDKResult`, so the function
is total — it returns an `SDKResult` for every input. -/
def initSDK (adapters : List RuntimeAdapter) (config : SDKConfig) : SDKResult :=
  match initSDKCore adapters config with
  | .ok r => r
  | .error _ => noopSDKResult

/-! ### Claim C1 — `initSDK` is total and degrades to the no-op result -/

/-- Claim C1: `initSDK` is total — its type returns a plain `SDKResult` for
every registry and config, with the only effect boundary the embedded
`try`/`catch` — and whenever adapter resolution or setup throws, the returned
value is exactly `noopSDKResult`, which has a present (global) provider, the
present no-op logger, and `shutdown`/`forceFlush` operations that resolve
immediately. -/
theorem initSDK_total (adapters : List RuntimeAdapter) (config : SDKConfig) :
    (∀ e, initSDKCore adapters config = .error e →
      initSDK adapters config = noopSDKResult) ∧
    (∀ r, initSDKCore adapters config = .ok r → initSDK adapters config = r) ∧
    noopSDKResult.provider = .globalProvider ∧
    noopSDKResult.logger = .noopLogger ∧
    noopSDKResult.shutdown = .immediate ∧
    noopSDKResult.forceFlush = .immediate := by
  refine ⟨?_, ?_, rfl, rfl, rfl, rfl⟩
  · intro e he
    unfold initSDK
    rw [he]
  · intro r hr
    unfold initSDK
    rw [hr]

/-- Claim C1 witness: injecting an adapter whose `setup` intentionally throws
(and whose `detect` matches), `initSDK` returns the well-formed no-op
result. -/
theorem initSDK_total_witness :
    initSDKCore [{ name := "boom",
                   detect := .ok true,
                   setup := fun _ => .error "setup exploded" }] {}
      = .error "setup exploded" ∧
    initSDK [{ name := "boom",
               detect := .ok true,
               setup := fun _ => .error "setup exploded" }] {}
      = noopSDKResult :=
  ⟨rfl,
   (initSDK_total [{ name := "boom",
                     detect := .ok true,
                     setup := fun _ => .error "setup exploded" }] {}).1
     "setup exploded" rfl⟩

/-! ## `src/with-trace.ts` — the span engine

The callable passed to `withTrace` is modelled by its behaviour: it either
throws synchronously, returns a plain value, or returns a promise together
with that promise's eventual settlement.  The engine's effect on the span is
recorded as two event lists: `inlineEvents` are emitted before `withTrace`
returns to its caller, `settleEvents` are the handlers attached to the
returned promise, emitted only when it settles. -/

/-- A thrown JavaScript value: an `Error` object with a `message`, or any
other value together with its `String(error)` rendering. -/
inductive Thrown where
  | errObj (message : String)
  | nonError (rendered : String)
deriving DecidableEq, Repr

/-- `error instanceof Error ? error.message : String(error)`. -/
def thrownMessage : Thrown → String
  | .errObj m => m
  | .nonError r => r

/-- The span operations `withTrace` performs on its span. -/
inductive SpanEvent where
  | statusError (message : String)
  | recordException (e : Thrown)
  | endSpan
deriving DecidableEq, Repr

/-- The settlement of a promise: resolution with a value or rejection with a
thrown reason. -/
inductive Settled (V : Type) where
  | resolved (v : V)
  | rejected (e : Thrown)

/-- What the callable `fn` produced when it did not throw: a plain value
(`result instanceof Promise` is false) or a promise carrying its eventual
settlement. -/
inductive FnReturn (V : Type) where
  | value (v : V)
  | promise (outcome : Settled V)

/-- The observable outcome of one `withTrace` call: what it returns (or
throws), the span events emitted inline, and the span events attached to the
returned promise's settlement. -/
structure WithTraceOutcome (V : Type) where
  result : Except Thrown (FnReturn V)
  inlineEvents : List SpanEvent
  settleEvents : List SpanEvent

/-- Embedding of the execution core of `withTrace` (`src/with-trace.ts`
lines 144–178).  A synchronous throw records status/exception, ends the span
and re-throws; a plain return ends the span and returns the value; a returned
promise leaves the span open and attaches the status/exception/end logic to
its settlement, preserving the resolution value or rejection reason. -/
def withTraceRun {V : Type} (fn : Except Thrown (FnReturn V)) : WithTraceOutcome V :=
  match fn with
  | .error e =>
    { result := .error e
      inlineEvents := [.statusError (thrownMessage e), .recordException e, .endSpan]
      settleEvents := [] }
  | .ok (.value v) =>
    { result := .ok (.value v)
      inlineEvents := [.endSpan]
      settleEvents := [] }
  | .ok (.promise (.resolved v)) =>
    { result := .ok (.promise (.resolved v))
      inlineEvents := []
      settleEvents := [.endSpan] }
  | .ok (.promise (.rejected e)) =>
    { result := .ok (.promise (.rejected e))
      inlineEvents := []
      settleEvents := [.statusError (thrownMessage e), .recordException e, .endSpan] }

/-! ### Claim C3 — synchronous callables -/

/-- Claim C3: for every synchronous callable — if it returns a value,
`withTrace` returns that same value and ends the span exactly once; if it
throws, the span status is set to error with the thrown value's message
(the `String(error)` rendering when the value is not an `Error` object), the
exception is recorded, the span is ended exactly once, and the identical
value is re-thrown — the engine never swallows the error. -/
theorem withTrace_sync (V : Type) (v : V) (e : Thrown) :
    withTraceRun (.ok (.value v))
      = { result := .ok (.value v), inlineEvents := [.endSpan], settleEvents := [] } ∧
    ((withTraceRun (V := V) (.ok (.value v))).inlineEvents ++
      (withTraceRun (V := V) (.ok (.value v))).settleEvents).count .endSpan = 1 ∧
    withTraceRun (V := V) (.error e)
      = { result := .error e
          inlineEvents := [.statusError (thrownMessage e), .recordException e, .endSpan]
          settleEvents := [] } ∧
    ((withTraceRun (V := V) (.error e)).inlineEvents ++
      (withTraceRun (V := V) (.error e)).settleEvents).count .endSpan = 1 := by
  refine ⟨rfl, rfl, rfl, ?_⟩
  simp [withTraceRun, List.count_cons]

/-! ### Claim C4 — promise-returning callables -/

/-- Claim C4: for every callable that returns a promise, no span event
(in particular no `end`) is emitted inline — the span ends only when the
promise settles.  On resolution the settlement emits exactly `end` and the
resolution value is preserved unchanged; on rejection the settlement (and
only the settlement) sets error status and records the exception, then ends
the span, and the original rejection reason is propagated unchanged. -/
theorem withTrace_async (V : Type) (v : V) (e : Thrown) :
    withTraceRun (.ok (.promise (.resolved v)))
      = { result := .ok (.promise (.resolved v))
          inlineEvents := []
          settleEvents := [.endSpan] } ∧
    withTraceRun (V := V) (.ok (.promise (.rejected e)))
      = { result := .ok (.promise (.rejected e))
          inlineEvents := []
          settleEvents := [.statusError (thrownMessage e), .recordException e, .endSpan] } ∧
    SpanEvent.endSpan ∉ (withTraceRun (.ok (.promise (.resolved v)))).inlineEvents ∧
    SpanEvent.endSpan ∉ (withTraceRun (V := V) (.ok (.promise (.rejected e)))).inlineEvents ∧
    SpanEvent.endSpan ∈ (withTraceRun (.ok (.promise (.resolved v)))).settleEvents ∧
    SpanEvent.endSpan ∈ (withTraceRun (V := V) (.ok (.promise (.rejected e)))).settleEvents := by
  refine ⟨rfl, rfl, ?_, ?_, ?_, ?_⟩ <;> simp [withTraceRun]

/-! ## `src/runtimes/cloudflare/workflow.ts` — durable-workflow tracing

Trace contexts are pairs of a trace id and a span id.  A `traceparent`
carrier value is either the empty string (JS-falsy), a well-formed W3C
string carrying a span context, or a malformed non-empty string.  The W3C
propagator is modelled by `extractCtx` (extraction from `ROOT_CONTEXT` with a
`traceparent` carrier) and `injectTp` (injection from an active context into
a carrier, with `carrier.traceparent ?? ""` for the missing case).

The workflow run is a single-threaded, cooperatively scheduled program; the
embedding linearizes its event loop: the synchronous prefix of the
`parentCtxPromise` IIFE in `createTracedStep` — which invokes
`step.do("__traceparent", …)` — runs when the traced step is constructed,
before the root span starts and before the user `run` body; each traced user
step awaits the persisted parent context before invoking the underlying
primitive. -/

/-- A span context: the pair actually carried by a W3C traceparent. -/
structure SpanCtx where
  traceId : Nat
  spanId : Nat
deriving DecidableEq, Repr

/-- A `traceparent` string as used by the workflow code: `empty` is `""`
(JS-falsy), `valid` is a parseable W3C value, `malformed` is any other
non-empty string. -/
inductive TpStr where
  | empty
  | valid (sc : SpanCtx)
  | malformed (s : String)
deriving DecidableEq, Repr

/-- JS truthiness of a traceparent string: only `""` is falsy. -/
def TpStr.truthy : TpStr → Bool
  | .empty => false
  | _ => true

/-- `propagation.extract(ROOT_CONTEXT, { traceparent })`: the span context in
the resulting context, `none` when the value does not parse (the context
stays `ROOT_CONTEXT`, which carries no span). -/
def extractCtx : TpStr → Option SpanCtx
  | .valid sc => some sc
  | _ => none

/-- `propagation.inject(ctx, carrier)` followed by
`carrier.traceparent ?? ""`: an active span context serializes to a valid
traceparent, no active span context leaves the carrier empty. -/
def injectTp : Option SpanCtx → TpStr
  | some sc => .valid sc
  | none => .empty

/-- One recorded span: name, its own context and its parent's context. -/
structure SpanRec where
  name : String
  ctx : SpanCtx
  parent : Option SpanCtx
deriving DecidableEq, Repr

/-- The tracer state: a fresh-id counter and the list of started spans in
start order. -/
structure TraceLog where
  nextId : Nat
  spans : List SpanRec
deriving DecidableEq, Repr

/-- `tracer.startActiveSpan(name, opts, parentCtx, …)`: the new span gets a
fresh span id, inherits the parent's trace id (or starts a fresh trace), and
is recorded with its parent. -/
def startSpan (name : String) (parent : Option SpanCtx) (st : TraceLog) :
    SpanCtx × TraceLog :=
  let sc : SpanCtx :=
    { traceId := match parent with | some p => p.traceId | none => st.nextId
      spanId := st.nextId }
  (sc, { nextId := st.nextId + 1, spans := st.spans ++ [⟨name, sc, parent⟩] })

/-- The underlying durable `WorkflowStep`: memoized results for steps the
model tracks (the traceparent-persistence step) and the order in which
`step.do`/`sleep`/`sleepUntil` names are invoked on it. -/
structure StepState where
  memo : List (String × TpStr)
  invoked : List String
deriving DecidableEq, Repr

/-- Durable `step.do(name, cb)` for a step whose result the model tracks:
when a memoized result exists it is replayed (the callback is not
re-executed); otherwise the computed value is recorded and memoized. -/
def stepDo (st : StepState) (name : String) (computed : TpStr) : TpStr × StepState :=
  match (st.memo.find? (fun e => e.1 = name)).map (·.2) with
  | some v => (v, { st with invoked := st.invoked ++ [name] })
  | none =>
    (computed,
     { memo := st.memo ++ [(name, computed)], invoked := st.invoked ++ [name] })

/-- Durable `step.do` for a user step (result untracked): the underlying
primitive is invoked with the user's step name. -/
def stepDoUser (st : StepState) (name : String) : StepState :=
  { st with invoked := st.invoked ++ [name] }

/-- The traced user steps in program order: each `tracedDo`/`tracedSleep`
awaits the persisted parent context, starts a span with that explicit parent
(`withSpan parentCtx name …`), and invokes the underlying primitive. -/
def runUserSteps (parent : Option SpanCtx) :
    List String → TraceLog → StepState → TraceLog × StepState
  | [], log, st => (log, st)
  | n :: rest, log, st =>
    runUserSteps parent rest (startSpan n parent log).2 (stepDoUser st n)

/-- The inputs of one instrumented workflow run: the `__traceparent` field of
`event.payload` (`none` when the key is absent), the ambient active context
at entry, the durable memo (pre-seeded on resumption), and the user-defined
step names invoked by the `run` body. -/
structure WorkflowInput where
  payloadTraceparent : Option TpStr := none
  ambient : Option SpanCtx := none
  memo : List (String × TpStr) := []
  userSteps : List String := []

/-- The observable outcome of one instrumented run. -/
structure WorkflowRun where
  invoked : List String
  persisted : TpStr
  stepParent : Option SpanCtx
  rootParent : Option SpanCtx
  rootSpan : SpanCtx
  log : TraceLog

/-- Embedding of the instrumented `run` (`instrumentWorkflow`, lines 198–244
of `src/runtimes/cloudflare/workflow.ts`) together with `createTracedStep`
(lines 127–165), linearized as described above:

1. auto-extract `__traceparent` from the payload;
2. `createTracedStep`: compute `tp` (payload value if truthy, else inject the
   ambient context), invoke `step.do("__traceparent", () => tp)` on the
   underlying durable step, and resolve the step wrappers' parent context
   from the persisted value (falling back to the ambient context when it is
   falsy);
3. start the root `workflow.run` span from the payload traceparent (ambient
   context when absent/falsy);
4. run the user body: each user step starts a span parented to the persisted
   context resolved in step 2 and invokes the underlying primitive. -/
def instrumentWorkflowRun (inp : WorkflowInput) : WorkflowRun :=
  let traceparent : Option TpStr := inp.payloadTraceparent
  let tp : TpStr :=
    match traceparent with
    | some t => if t.truthy then t else injectTp inp.ambient
    | none => injectTp inp.ambient
  let step0 : StepState := { memo := inp.memo, invoked := [] }
  let persisted : TpStr := (stepDo step0 "__traceparent" tp).1
  let step1 : StepState := (stepDo step0 "__traceparent" tp).2
  let stepParent : Option SpanCtx :=
    if persisted.truthy then extractCtx persisted else inp.ambient
  let rootParent : Option SpanCtx :=
    match traceparent with
    | some t => if t.truthy then extractCtx t else inp.ambient
    | none => inp.ambient
  let started := startSpan "workflow.run" rootParent { nextId := 0, spans := [] }
  let runRest := runUserSteps stepParent inp.userSteps started.2 step1
  { invoked := runRest.2.invoked
    persisted := persisted
    stepParent := stepParent
    rootParent := rootParent
    rootSpan := started.1
    log := runRest.1 }

/-! ### Lemmas about the user-step fold -/

theorem runUserSteps_invoked (parent : Option SpanCtx) (steps : List String)
    (log : TraceLog) (st : StepState) :
    (runUserSteps parent steps log st).2.invoked = st.invoked ++ steps := by
  induction steps generalizing log st with
  | nil => simp [runUserSteps]
  | cons n rest ih =>
    simp [runUserSteps, ih, stepDoUser]

theorem runUserSteps_spans (parent : Option SpanCtx) (steps : List String)
    (log : TraceLog) (st : StepState) :
    ((runUserSteps parent steps log st).1.spans.map (fun s => (s.name, s.parent)))
      = log.spans.map (fun s => (s.name, s.parent))
        ++ steps.map (fun n => (n, parent)) := by
  induction steps generalizing log st with
  | nil => simp [runUserSteps]
  | cons n rest ih =>
    simp [runUserSteps, ih, startSpan]

/-! ### Claim C5 — parentage of durable-step spans -/

/-- Claim C5 counterexample: durable-step spans are NOT children of the root
`workflow.run` span.  With a payload traceparent carrying span context
`(1, 5)` and one user step `"work"`, the step wrapper's parent context is the
context extracted from the persisted traceparent — span `(1, 5)` — while the
root run span is the fresh span `(1, 0)`: the step span is a sibling of the
root span (both children of `(1, 5)`), not its child. -/
theorem workflowStepSpan_not_child_of_root :
    ((instrumentWorkflowRun
        { payloadTraceparent := some (.valid ⟨1, 5⟩), ambient := none,
          memo := [], userSteps := ["work"] }).log.spans.filter
            (fun s => s.name = "work")).map (fun s => s.parent)
      = [some ⟨1, 5⟩] ∧
    (instrumentWorkflowRun
        { payloadTraceparent := some (.valid ⟨1, 5⟩), ambient := none,
          memo := [], userSteps := ["work"] }).rootSpan = ⟨1, 0⟩ ∧
    (some (⟨1, 5⟩ : SpanCtx) ≠
      some ((instrumentWorkflowRun
        { payloadTraceparent := some (.valid ⟨1, 5⟩), ambient := none,
          memo := [], userSteps := ["work"] }).rootSpan)) := by
  refine ⟨by decide, by decide, by decide⟩

/-- Claim C5 (amended): every durable-step span is parented to the resolved
persisted workflow context — the context extracted from the persisted
traceparent when it is truthy, else the entry ambient context — which is
threaded explicitly into every step wrapper rather than read from ambient
state.  This makes step spans siblings of the root `workflow.run` span
(which shares the same parent whenever a truthy payload traceparent is
supplied on a fresh run), not its children. -/
theorem workflowStepSpan_parent_explicit (inp : WorkflowInput) :
    ((instrumentWorkflowRun inp).log.spans.map (fun s => (s.name, s.parent)))
      = ("workflow.run", (instrumentWorkflowRun inp).rootParent)
          :: inp.userSteps.map (fun n => (n, (instrumentWorkflowRun inp).stepParent)) ∧
    (instrumentWorkflowRun inp).stepParent
      = (if (instrumentWorkflowRun inp).persisted.truthy
         then extractCtx (instrumentWorkflowRun inp).persisted else inp.ambient) ∧
    (∀ t, inp.payloadTraceparent = some t → t.truthy = true →
      (instrumentWorkflowRun inp).rootParent = extractCtx t) ∧
    (∀ t, inp.payloadTraceparent = some t → t.truthy = true →
      (inp.memo.find? (fun e => e.1 = "__traceparent")).map (·.2) = none →
      (instrumentWorkflowRun inp).stepParent = extractCtx t ∧
      (instrumentWorkflowRun inp).stepParent = (instrumentWorkflowRun inp).rootParent) := by
  refine ⟨?_, ?_, ?_, ?_⟩
  · simp only [instrumentWorkflowRun]
    rw [runUserSteps_spans]
    simp [startSpan]
  · rfl
  · intro t ht htr
    simp only [instrumentWorkflowRun, ht, htr, if_true]
  · intro t ht htr hmemo
    unfold instrumentWorkflowRun stepDo
    simp only [ht, htr, if_true, hmemo]
    simp [htr]

/-- Claim C5 witness: on a fresh run with payload traceparent `(2, 7)` and
one user step, the step wrappers' parent context and the root span's parent
context both resolve to span `(2, 7)`. -/
theorem workflowStepSpan_parent_explicit_witness :
    (instrumentWorkflowRun
        { payloadTraceparent := some (.valid ⟨2, 7⟩), ambient := none,
          memo := [], userSteps := ["a"] }).rootParent = extractCtx (.valid ⟨2, 7⟩) ∧
    (instrumentWorkflowRun
        { payloadTraceparent := some (.valid ⟨2, 7⟩), ambient := none,
          memo := [], userSteps := ["a"] }).stepParent = extractCtx (.valid ⟨2, 7⟩) ∧
    (instrumentWorkflowRun
        { payloadTraceparent := some (.valid ⟨2, 7⟩), ambient := none,
          memo := [], userSteps := ["a"] }).stepParent
      = (instrumentWorkflowRun
        { payloadTraceparent := some (.valid ⟨2, 7⟩), ambient := none,
          memo := [], userSteps := ["a"] }).rootParent :=
  ⟨(workflowStepSpan_parent_explicit
      { payloadTraceparent := some (.valid ⟨2, 7⟩), ambient := none,
        memo := [], userSteps := ["a"] }).2.2.1 (.valid ⟨2, 7⟩) rfl rfl,
   ((workflowStepSpan_parent_explicit
      { payloadTraceparent := some (.valid ⟨2, 7⟩), ambient := none,
        memo := [], userSteps := ["a"] }).2.2.2 (.valid ⟨2, 7⟩) rfl rfl rfl).1,
   ((workflowStepSpan_parent_explicit
      { payloadTraceparent := some (.valid ⟨2, 7⟩), ambient := none,
        memo := [], userSteps := ["a"] }).2.2.2 (.valid ⟨2, 7⟩) rfl rfl rfl).2⟩

/-! ### Claim C6 — the traceparent-persistence step runs first and replays -/

/-- Claim C6: in every instrumented run, the first durable step invoked on
the underlying step object is the dedicated `"__traceparent"` persistence
step, before any user-defined step; and whenever the durable primitive holds
a memoized result for that step (resumption), the persisted value is reused
verbatim — it becomes the returned result and, when truthy, the parent
context — with no newly computed traceparent taking its place. -/
theorem workflow_traceparent_first_step (inp : WorkflowInput) :
    (instrumentWorkflowRun inp).invoked = "__traceparent" :: inp.userSteps ∧
    (instrumentWorkflowRun inp).invoked.head? = some "__traceparent" ∧
    (∀ v, (inp.memo.find? (fun e => e.1 = "__traceparent")).map (·.2) = some v →
      (instrumentWorkflowRun inp).persisted = v ∧
      (v.truthy = true → (instrumentWorkflowRun inp).stepParent = extractCtx v)) := by
  have hinv : (instrumentWorkflowRun inp).invoked = "__traceparent" :: inp.userSteps := by
    unfold instrumentWorkflowRun stepDo
    cases h : (List.find? (fun e => e.1 = "__traceparent") inp.memo).map (·.2) with
    | none => simp [h, runUserSteps_invoked]
    | some v => simp [h, runUserSteps_invoked]
  refine ⟨hinv, by rw [hinv]; rfl, ?_⟩
  intro v hv
  constructor
  · unfold instrumentWorkflowRun stepDo
    simp [hv]
  · intro htr
    unfold instrumentWorkflowRun stepDo
    simp [hv, htr]

/-- Claim C6 witness: a simulated resumption — the `"__traceparent"` step
result pre-seeded with span context `(3, 9)` while the ambient context is the
different span `(8, 8)` — invokes the persistence step first and reuses the
seeded value verbatim as the parent context. -/
theorem workflow_traceparent_first_step_witness :
    (instrumentWorkflowRun
        { payloadTraceparent := none, ambient := some ⟨8, 8⟩,
          memo := [("__traceparent", .valid ⟨3, 9⟩)],
          userSteps := ["user-step"] }).invoked = ["__traceparent", "user-step"] ∧
    (instrumentWorkflowRun
        { payloadTraceparent := none, ambient := some ⟨8, 8⟩,
          memo := [("__traceparent", .valid ⟨3, 9⟩)],
          userSteps := ["user-step"] }).persisted = .valid ⟨3, 9⟩ ∧
    (instrumentWorkflowRun
        { payloadTraceparent := none, ambient := some ⟨8, 8⟩,
          memo := [("__traceparent", .valid ⟨3, 9⟩)],
          userSteps := ["user-step"] }).stepParent = some ⟨3, 9⟩ :=
  ⟨(workflow_traceparent_first_step
      { payloadTraceparent := none, ambient := some ⟨8, 8⟩,
        memo := [("__traceparent", .valid ⟨3, 9⟩)],
        userSteps := ["user-step"] }).1,
   ((workflow_traceparent_first_step
      { payloadTraceparent := none, ambient := some ⟨8, 8⟩,
        memo := [("__traceparent", .valid ⟨3, 9⟩)],
        userSteps := ["user-step"] }).2.2 (.valid ⟨3, 9⟩) (by decide)).1,
   ((workflow_traceparent_first_step
      { payloadTraceparent := none, ambient := some ⟨8, 8⟩,
        memo := [("__traceparent", .valid ⟨3, 9⟩)],
        userSteps := ["user-step"] }).2.2 (.valid ⟨3, 9⟩) (by decide)).2 rfl⟩

/-! ## `injectTraceparent` / `extractTraceparent`

Parameter bags are JS objects: association lists with unique keys over a
small value universe.  The source builds its results exclusively with spread
(`{ ...params, __traceparent }`) and rest destructuring
(`const { __traceparent, ...rest } = params`), both of which construct new
objects; the embedding is accordingly a pure input/output relation and the
input list appears unchanged on the right-hand sides. -/

/-- A JS value stored in a parameter bag. -/
inductive JsVal where
  | str (s : String)
  | num (n : Int)
deriving DecidableEq, Repr

/-- The object spread `{ ...o, k: v }`: entries of `o` preserved, `k` bound
to `v` (overriding an existing entry, else appended). -/
def setObjKey (o : List (String × JsVal)) (k : String) (v : JsVal) :
    List (String × JsVal) :=
  if o.any (fun e => e.1 = k) then o.map (fun e => if e.1 = k then (k, v) else e)
  else o ++ [(k, v)]

/-- The W3C serialization `00-{traceId}-{spanId}-01` of a span context as
produced by `propagation.inject` for a sampled span. -/
def serializeSpanCtx (sc : SpanCtx) : String :=
  ⟨'0' :: '0' :: '-' ::
    ((Nat.repr sc.traceId).data ++ '-' :: (Nat.repr sc.spanId).data ++ "-01".data)⟩

/-- Embedding of `injectTraceparent` (`workflow.ts` lines 261–267):
`propagation.inject(context.active(), carrier)` fills the carrier from the
active span context (nothing when there is none), and the result is
`{ ...params, __traceparent: carrier.traceparent ?? "" }`. -/
def injectTraceparent (active : Option SpanCtx) (params : List (String × JsVal)) :
    List (String × JsVal) :=
  setObjKey params "__traceparent"
    (.str (match active with | some sc => serializeSpanCtx sc | none => ""))

/-- Embedding of `extractTraceparent` (`workflow.ts` lines 280–288): rest
destructuring drops the `__traceparent` entry, and the extracted value is the
entry's value when it is a string, else `undefined`. -/
def extractTraceparent (params : List (String × JsVal)) :
    List (String × JsVal) × Option String :=
  (params.filter (fun e => ¬(e.1 = "__traceparent")),
   match (params.find? (fun e => e.1 = "__traceparent")).map (·.2) with
   | some (JsVal.str s) => some s
   | _ => none)

/-- The parameter bag holds a non-empty `__traceparent` string. -/
def hasNonemptyTraceparent (o : List (String × JsVal)) : Prop :=
  ∃ t, (o.find? (fun e => e.1 = "__traceparent")).map (·.2) = some (.str t) ∧ t ≠ ""

/-! ### Claim C9 — the traceparent parameter-bag transforms -/

/-- Claim C9 counterexample: `injectTraceparent` does not always add a
non-empty `__traceparent` string.  When no trace context is active the
propagator injects nothing and the source's `carrier.traceparent ?? ""`
chooses the empty string. -/
theorem injectTraceparent_empty_when_no_context :
    injectTraceparent none [("a", JsVal.num 1)]
      = [("a", JsVal.num 1), ("__traceparent", JsVal.str "")] ∧
    ¬ hasNonemptyTraceparent (injectTraceparent none [("a", JsVal.num 1)]) := by
  refine ⟨by decide, ?_⟩
  rintro ⟨t, ht, hne⟩
  rw [show injectTraceparent none [("a", JsVal.num 1)]
      = [("a", JsVal.num 1), ("__traceparent", JsVal.str "")] from by decide] at ht
  have hfind : (List.find? (fun e => e.1 = "__traceparent")
      [("a", JsVal.num 1), ("__traceparent", JsVal.str "")]).map (·.2)
      = some (JsVal.str "") := by decide
  rw [hfind] at ht
  exact hne (JsVal.str.inj (Option.some.inj ht)).symm

theorem serializeSpanCtx_ne_empty (sc : SpanCtx) : serializeSpanCtx sc ≠ "" := by
  intro h
  have hd := congrArg String.data h
  simp [serializeSpanCtx] at hd

/-- Claim C9 (amended): `injectTraceparent` and `extractTraceparent` are pure
value transforms (the source builds results with spread/rest only, leaving
the input object untouched).  When a trace context is active,
`injectTraceparent p` returns a new bag containing every entry of a
`__traceparent`-free `p` plus the non-empty serialized traceparent; with no
active context the added string is empty.  `extractTraceparent q` returns
`q`'s entries with the `__traceparent` key stripped, paired with the
extracted string value when present. -/
theorem injectExtractTraceparent_value_transform (active : Option SpanCtx)
    (sc : SpanCtx) (p q : List (String × JsVal)) (s : String) :
    (active = some sc → p.find? (fun e => e.1 = "__traceparent") = none →
      injectTraceparent active p
        = p ++ [("__traceparent", JsVal.str (serializeSpanCtx sc))] ∧
      serializeSpanCtx sc ≠ "") ∧
    ((q.find? (fun e => e.1 = "__traceparent")).map (·.2) = some (JsVal.str s) →
      (extractTraceparent q).2 = some s) ∧
    (extractTraceparent q).1 = q.filter (fun e => ¬(e.1 = "__traceparent")) ∧
    (extractTraceparent q).1.find? (fun e => e.1 = "__traceparent") = none := by
  refine ⟨?_, ?_, rfl, ?_⟩
  · intro ha hp
    refine ⟨?_, serializeSpanCtx_ne_empty sc⟩
    have hany : p.any (fun e => e.1 = "__traceparent") = false := by
      rw [List.any_eq_false]
      intro x hx
      have := List.find?_eq_none.mp hp x hx
      simpa using this
    simp [injectTraceparent, setObjKey, ha, hany]
  · intro hq
    simp only [extractTraceparent]
    rw [hq]
  · rw [List.find?_eq_none]
    intro x hx
    have := (List.mem_filter.mp hx).2
    simpa using this

/-- Claim C9 witness: with active span context `(1, 2)`,
`injectTraceparent` on the bag holding `a: 1` appends the non-empty
serialized traceparent and preserves the entry, and `extractTraceparent` on
`a: 1, __traceparent: "x"` yields the stripped bag and the value `"x"`. -/
theorem injectExtractTraceparent_value_transform_witness :
    injectTraceparent (some ⟨1, 2⟩) [("a", JsVal.num 1)]
      = [("a", JsVal.num 1), ("__traceparent", JsVal.str (serializeSpanCtx ⟨1, 2⟩))] ∧
    serializeSpanCtx ⟨1, 2⟩ ≠ "" ∧
    (extractTraceparent [("a", JsVal.num 1), ("__traceparent", JsVal.str "x")]).2
      = some "x" ∧
    (extractTraceparent [("a", JsVal.num 1), ("__traceparent", JsVal.str "x")]).1
      = [("a", JsVal.num 1)] :=
  ⟨((injectExtractTraceparent_value_transform (some ⟨1, 2⟩) ⟨1, 2⟩
      [("a", JsVal.num 1)] [("a", JsVal.num 1), ("__traceparent", JsVal.str "x")]
      "x").1 rfl rfl).1,
   ((injectExtractTraceparent_value_transform (some ⟨1, 2⟩) ⟨1, 2⟩
      [("a", JsVal.num 1)] [("a", JsVal.num 1), ("__traceparent", JsVal.str "x")]
      "x").1 rfl rfl).2,
   (injectExtractTraceparent_value_transform (some ⟨1, 2⟩) ⟨1, 2⟩
      [("a", JsVal.num 1)] [("a", JsVal.num 1), ("__traceparent", JsVal.str "x")]
      "x").2.1 (by decide),
   ((injectExtractTraceparent_value_transform (some ⟨1, 2⟩) ⟨1, 2⟩
      [("a", JsVal.num 1)] [("a", JsVal.num 1), ("__traceparent", JsVal.str "x")]
      "x").2.2.1).trans (by decide)⟩

/-! ## `src/resource.ts` — the resource builder

Resources are attribute lists merged left to right with later entries taking
precedence, matching `Resource.merge` where the updating resource's
attributes win; `getAttr` reads an attribute under that discipline.
`process.stderr.isTTY` is an explicit parameter.

JS `decodeURIComponent` is a partial builtin: it throws `URIError` on a `%`
not followed by two hex digits and on escape sequences whose octets are not
a valid (shortest-form, non-surrogate, in-range) UTF-8 encoding, with every
continuation octet itself given as a `%XX` escape.  `jsDecodeURIComponent`
models it as an `Option`-valued function (`none` is the thrown `URIError`),
implementing the strict UTF-8 table of ECMA-262 `Decode`; an astral code
point is one `Char` here where a JS string holds its surrogate pair, i.e.
strings are compared as code-point sequences.  The failure propagates —
uncaught, as in the source — through `parseEnvResourceAttributes` and
`buildResource`. -/

/-- The numeric value of a hexadecimal digit. -/
def hexDigitVal (c : Char) : Option Nat :=
  if '0' ≤ c ∧ c ≤ '9' then some (c.toNat - '0'.toNat)
  else if 'a' ≤ c ∧ c ≤ 'f' then some (c.toNat - 'a'.toNat + 10)
  else if 'A' ≤ c ∧ c ≤ 'F' then some (c.toNat - 'A'.toNat + 10)
  else none

/-- The byte of a two-hex-digit escape body. -/
def hexPairVal (a b : Char) : Option Nat :=
  match hexDigitVal a, hexDigitVal b with
  | some ha, some hb => some (16 * ha + hb)
  | _, _ => none

/-- One token of a percent-encoded string: a literal character or one `%XX`
escaped octet. -/
inductive PctTok where
  | raw (c : Char)
  | byte (v : Nat)
deriving DecidableEq, Repr

/-- Tokenize a percent-encoded string: each `%` must be followed by two hex
digits (else `URIError`); other characters are literal. -/
def pctTokenize : List Char → Option (List PctTok)
  | [] => some []
  | '%' :: a :: b :: rest =>
    match hexPairVal a b with
    | some v => (pctTokenize rest).map (PctTok.byte v :: ·)
    | none => none
  | '%' :: _ => none
  | c :: rest => (pctTokenize rest).map (PctTok.raw c :: ·)

/-- A UTF-8 continuation octet. -/
def isContOctet (n : Nat) : Bool := 0x80 ≤ n && n ≤ 0xBF

/-- Lead octet of a two-octet sequence (`0xC0`/`0xC1` would be overlong). -/
def twoOctetLead (n : Nat) : Bool := 0xC2 ≤ n && n ≤ 0xDF

/-- Lead octet of a three-octet sequence. -/
def threeOctetLead (n : Nat) : Bool := 0xE0 ≤ n && n ≤ 0xEF

/-- Valid first continuation after a three-octet lead: `0xE0` excludes
overlong encodings, `0xED` excludes surrogates. -/
def threeOctetContOk (v c1 : Nat) : Bool :=
  if v = 0xE0 then 0xA0 ≤ c1 && c1 ≤ 0xBF
  else if v = 0xED then 0x80 ≤ c1 && c1 ≤ 0x9F
  else isContOctet c1

/-- Lead octet of a four-octet sequence (`0xF5`.. would exceed `U+10FFFF`). -/
def fourOctetLead (n : Nat) : Bool := 0xF0 ≤ n && n ≤ 0xF4

/-- Valid first continuation after a four-octet lead: `0xF0` excludes
overlong encodings, `0xF4` caps at `U+10FFFF`. -/
def fourOctetContOk (v c1 : Nat) : Bool :=
  if v = 0xF0 then 0x90 ≤ c1 && c1 ≤ 0xBF
  else if v = 0xF4 then 0x80 ≤ c1 && c1 ≤ 0x8F
  else isContOctet c1

/-- Code point of a two-octet sequence. -/
def codePoint2 (v c1 : Nat) : Nat := (v - 0xC0) * 0x40 + (c1 - 0x80)

/-- Code point of a three-octet sequence. -/
def codePoint3 (v c1 c2 : Nat) : Nat :=
  (v - 0xE0) * 0x1000 + (c1 - 0x80) * 0x40 + (c2 - 0x80)

/-- Code point of a four-octet sequence. -/
def codePoint4 (v c1 c2 c3 : Nat) : Nat :=
  (v - 0xF0) * 0x40000 + (c1 - 0x80) * 0x1000 + (c2 - 0x80) * 0x40 + (c3 - 0x80)

/-- Strict UTF-8 decoding of the token stream, per ECMA-262 `Decode`: an
ASCII octet stands alone; a lead octet requires its exact number of escaped
continuation octets with the shortest-form/surrogate/range side conditions;
anything else (stray continuation, truncated sequence, literal character
where a continuation octet is required) is `URIError`. -/
def utf8DecodeToks : List PctTok → Option (List Char)
  | [] => some []
  | .raw c :: rest => (utf8DecodeToks rest).map (c :: ·)
  | .byte v :: rest =>
    if v < 0x80 then (utf8DecodeToks rest).map (Char.ofNat v :: ·)
    else
      match rest with
      | .byte c1 :: rest1 =>
        if twoOctetLead v then
          if isContOctet c1 then
            (utf8DecodeToks rest1).map (Char.ofNat (codePoint2 v c1) :: ·)
          else none
        else
          match rest1 with
          | .byte c2 :: rest2 =>
            if threeOctetLead v then
              if threeOctetContOk v c1 && isContOctet c2 then
                (utf8DecodeToks rest2).map (Char.ofNat (codePoint3 v c1 c2) :: ·)
              else none
            else
              match rest2 with
              | .byte c3 :: rest3 =>
                if fourOctetLead v && fourOctetContOk v c1
                    && isContOctet c2 && isContOctet c3 then
                  (utf8DecodeToks rest3).map (Char.ofNat (codePoint4 v c1 c2 c3) :: ·)
                else none
              | _ => none
          | _ => none
      | _ => none

/-- Model of JS `decodeURIComponent`: `none` is the thrown `URIError`. -/
def jsDecodeURIComponent (s : String) : Option String :=
  ((pctTokenize s.data).bind utf8DecodeToks).map (fun l => ⟨l⟩)

/-- JS `raw.split(",")`: comma-separated segments, empty segments kept. -/
def splitComma : List Char → List Char → List (List Char)
  | [], acc => [acc.reverse]
  | c :: rest, acc =>
    if c = ',' then acc.reverse :: splitComma rest []
    else splitComma rest (c :: acc)

/-- `pair.indexOf("=")` together with the two `slice`s: the segment before
the first `=` and the remainder after it; `none` when there is no `=`. -/
def splitAtFirstEq : List Char → Option (List Char × List Char)
  | [] => none
  | c :: rest =>
    if c = '=' then some ([], rest)
    else
      match splitAtFirstEq rest with
      | none => none
      | some (k, v) => some (c :: k, v)

/-- JS object assignment `attrs[k] = v`: overwrite an existing entry for `k`
in place, else append. -/
def setStrKey (m : List (String × String)) (k v : String) : List (String × String) :=
  if m.any (fun e => e.1 = k) then m.map (fun e => if e.1 = k then (k, v) else e)
  else m ++ [(k, v)]

/-- Attribute lookup where later entries take precedence over earlier ones
(the merge discipline of `Resource.merge`). -/
def getAttr : List (String × String) → String → Option String
  | [], _ => none
  | e :: rest, k =>
    match getAttr rest k with
    | some v => some v
    | none => if e.1 = k then some e.2 else none

/-- Embedding of the `OTEL_RESOURCE_ATTRIBUTES` loop of
`parseEnvResourceAttributes` (`src/resource.ts` lines 26–34): comma-split,
skip pairs whose `=` is absent or at position 0, trim key and value, skip
empty keys, percent-decode values — a `URIError` from `decodeURIComponent`
aborts the whole loop (`none`). -/
def parseAttrList (raw : String) : Option (List (String × String)) :=
  (splitComma raw.data []).foldlM
    (fun attrs pair =>
      match splitAtFirstEq pair with
      | none => some attrs
      | some (before, after) =>
        if before = [] then some attrs
        else
          let key := jsTrim ⟨before⟩
          let value := jsTrim ⟨after⟩
          if key = "" then some attrs
          else (jsDecodeURIComponent value).map (fun dv => setStrKey attrs key dv))
    []

/-- Embedding of `parseEnvResourceAttributes` (`src/resource.ts` lines
20–43): the attribute list (whose decode failure propagates), then the
`OTEL_SERVICE_NAME` override (trimmed; ignored when falsy), which takes
precedence over any `service.name` from the attribute list. -/
def parseEnvResourceAttributes (env : List (String × String)) :
    Option (List (String × String)) :=
  match (match lookupStr env "OTEL_RESOURCE_ATTRIBUTES" with
         | some raw => if raw = "" then some [] else parseAttrList raw
         | none => some []) with
  | none => none
  | some attrs =>
    match (lookupStr env "OTEL_SERVICE_NAME").map jsTrim with
    | some sn => some (if sn = "" then attrs else setStrKey attrs "service.name" sn)
    | none => some attrs

/-- The OTel default resource: the `unknown_service` placeholder service name
plus the SDK identification attributes. -/
def defaultResourceAttrs : List (String × String) :=
  [("service.name", "unknown_service:node"),
   ("telemetry.sdk.language", "nodejs"),
   ("telemetry.sdk.name", "opentelemetry")]

/-- The TTY fallback attributes (`src/resource.ts` lines 114–120): `"local"`
for whichever of the two attributes is still falsy while stderr is a TTY. -/
def ttyFallbackAttrs (needDeployEnv needNamespace : Bool) : List (String × String) :=
  (if needDeployEnv then [("deployment.environment.name", "local")] else [])
  ++ (if needNamespace then [("service.namespace", "local")] else [])

/-- The pure tail of `buildResource` (`src/resource.ts` lines 76–145), after
the `config.env` overrides (`envAttrs`) have been parsed: merge, in
increasing precedence, the default resource, the config attributes (with
`config.serviceName` when non-null), the runtime detectors' attributes, and
the env overrides; then the TTY fallback; then the three non-fatal
validation warnings (abbreviated to their leading sentence). -/
def buildResourceWith (config : SDKConfig)
    (runtimeDetectors : List (List (String × String))) (stderrIsTTY : Bool)
    (envAttrs : List (String × String)) :
    List (String × String) × List String :=
  let base := defaultResourceAttrs
  let configAttrs :=
    match config.serviceName with
    | some sn => setStrKey config.resourceAttributes "service.name" sn
    | none => config.resourceAttributes
  let detected := runtimeDetectors.foldl (fun acc d => acc ++ d) []
  let resource0 := base ++ configAttrs ++ detected ++ envAttrs
  let serviceName := getAttr resource0 "service.name"
  let deployEnv := getAttr resource0 "deployment.environment.name"
  let serviceNs := getAttr resource0 "service.namespace"
  let ttyAttrs := ttyFallbackAttrs (!(strTruthy deployEnv) && stderrIsTTY)
      (!(strTruthy serviceNs) && stderrIsTTY)
  let resource := if ttyAttrs.length > 0 then resource0 ++ ttyAttrs else resource0
  let warnings :=
    (if !(strTruthy serviceName)
        || beginsWith "unknown_service".data ((serviceName.getD "").data)
     then ["service.name resolved to \"" ++ serviceName.getD "unknown"
            ++ "\". Traces and logs will not be attributable to a specific service."]
     else [])
    ++ (if !(strTruthy (getAttr resource "deployment.environment.name"))
        then ["deployment.environment.name is not set."] else [])
    ++ (if !(strTruthy (getAttr resource "service.namespace"))
        then ["service.namespace is not set."] else [])
  (resource, warnings)

/-- Embedding of `buildResource` (`src/resource.ts` lines 72–146).  The only
fallible step is parsing the `config.env` overrides: a `URIError` thrown by
`decodeURIComponent` inside `parseEnvResourceAttributes` propagates uncaught
out of `buildResource` (`none`); otherwise the pure merge produces the
resource and warnings. -/
def buildResource (config : SDKConfig)
    (runtimeDetectors : List (List (String × String))) (stderrIsTTY : Bool) :
    Option (List (String × String) × List String) :=
  match config.env with
  | some env =>
    (parseEnvResourceAttributes env).map
      (buildResourceWith config runtimeDetectors stderrIsTTY)
  | none => some (buildResourceWith config runtimeDetectors stderrIsTTY [])

/-! ### Lemmas about attribute merging -/

theorem getAttr_append (a b : List (String × String)) (k : String) :
    getAttr (a ++ b) k
      = (match getAttr b k with
         | some v => some v
         | none => getAttr a k) := by
  induction a with
  | nil =>
    rw [List.nil_append]
    cases h : getAttr b k <;> rfl
  | cons e rest ih =>
    rw [List.cons_append]
    show (match getAttr (rest ++ b) k with
          | some v => some v
          | none => if e.1 = k then some e.2 else none) = _
    rw [ih]
    cases h : getAttr b k <;> rfl

theorem getAttr_eq_none_of_not_any (m : List (String × String)) (k : String)
    (h : m.any (fun e => e.1 = k) = false) : getAttr m k = none := by
  induction m with
  | nil => rfl
  | cons e rest ih =>
    rw [List.any_cons, Bool.or_eq_false_iff] at h
    have hne : ¬(e.1 = k) := of_decide_eq_false h.1
    have hr := ih h.2
    simp only [getAttr, hr, hne, if_false]

theorem map_replace_eq_self_of_not_any (m : List (String × String)) (k v : String)
    (h : m.any (fun e => e.1 = k) = false) :
    m.map (fun e => if e.1 = k then (k, v) else e) = m := by
  induction m with
  | nil => rfl
  | cons e rest ih =>
    rw [List.any_cons, Bool.or_eq_false_iff] at h
    have hne : ¬(e.1 = k) := of_decide_eq_false h.1
    simp [hne, ih h.2]

theorem getAttr_setStrKey_self (m : List (String × String)) (k v : String) :
    getAttr (setStrKey m k v) k = some v := by
  unfold setStrKey
  by_cases h : m.any (fun e => e.1 = k) = true
  · simp only [h, if_true]
    induction m with
    | nil => simp at h
    | cons e rest ih =>
      rw [List.any_cons, Bool.or_eq_true] at h
      by_cases hr : rest.any (fun e => e.1 = k) = true
      · simp only [List.map_cons, getAttr, ih hr]
      · have hr' : rest.any (fun e => e.1 = k) = false := Bool.eq_false_iff.mpr hr
        have hrest := map_replace_eq_self_of_not_any rest k v hr'
        have hkey : e.1 = k := by
          rcases h with h1 | h1
          · exact of_decide_eq_true h1
          · exact absurd h1 hr
        simp only [List.map_cons, hkey, if_pos rfl, getAttr, hrest,
          getAttr_eq_none_of_not_any rest k hr']
        simp
  · have h' : m.any (fun e => e.1 = k) = false := Bool.eq_false_iff.mpr h
    simp only [h', if_false, Bool.false_eq_true]
    rw [getAttr_append]
    simp [getAttr]

theorem getAttr_append_right (a b : List (String × String)) (k v : String)
    (h : getAttr b k = some v) : getAttr (a ++ b) k = some v := by
  rw [getAttr_append, h]

theorem getAttr_append_left (a b : List (String × String)) (k : String)
    (h : getAttr b k = none) : getAttr (a ++ b) k = getAttr a k := by
  rw [getAttr_append, h]

theorem getAttr_ttyFallbackAttrs_service_name (d1 d2 : Bool) :
    getAttr (ttyFallbackAttrs d1 d2) "service.name" = none := by
  cases d1 <;> cases d2 <;> decide

/-! ### Claim C8 — the env-map service-name override wins -/

/-- Claim C8 counterexample: the claim's universal form fails, because
`buildResource` is not total on env maps that set the service-name variable.
With `OTEL_SERVICE_NAME: "from-env"` set alongside
`OTEL_RESOURCE_ATTRIBUTES: "a=%"`, `decodeURIComponent("%")` throws
`URIError` inside `parseEnvResourceAttributes` and the error propagates out
of `buildResource`: there is no final resource whose service-name attribute
could equal the env-map value. -/
theorem buildResource_error_on_malformed_escape :
    buildResource
        { serviceName := some "from-config",
          env := some [("OTEL_SERVICE_NAME", "from-env"),
                       ("OTEL_RESOURCE_ATTRIBUTES", "a=%")] } [] false = none ∧
    jsDecodeURIComponent "%" = none := by
  refine ⟨by decide, by decide⟩

/-- Claim C8 (amended): the environment-map service-name override has highest
precedence in `buildResource` — for every config whose explicit env map sets
`OTEL_SERVICE_NAME` to a (trimmed, non-empty) value `s` and whose attribute
list decodes without a `URIError` (so that `buildResource` returns at all),
`buildResource` succeeds and the final resource's `service.name` attribute is
`s`, overwriting any service name coming from the config field, the config
attribute map, the runtime detectors, or the env attribute list. -/
theorem buildResource_env_service_name_wins (config : SDKConfig)
    (env envAttrs : List (String × String)) (s : String)
    (runtimeDetectors : List (List (String × String))) (stderrIsTTY : Bool)
    (h1 : config.env = some env)
    (h2 : lookupStr env "OTEL_SERVICE_NAME" = some s)
    (h3 : jsTrim s = s) (h4 : s ≠ "")
    (h5 : parseEnvResourceAttributes env = some envAttrs) :
    (buildResource config runtimeDetectors stderrIsTTY).map
      (fun rw => getAttr rw.1 "service.name") = some (some s) := by
  have hsvc : getAttr envAttrs "service.name" = some s := by
    unfold parseEnvResourceAttributes at h5
    cases hX : (match lookupStr env "OTEL_RESOURCE_ATTRIBUTES" with
                | some raw => if raw = "" then some [] else parseAttrList raw
                | none => some []) with
    | none =>
      rw [hX] at h5
      exact absurd h5 (by simp)
    | some attrs0 =>
      rw [hX] at h5
      simp only [h2, Option.map_some] at h5
      have := Option.some.inj h5
      rw [h3] at this
      rw [if_neg h4] at this
      rw [← this]
      exact getAttr_setStrKey_self _ _ _
  unfold buildResource
  rw [h1]
  show Option.map (fun rw => getAttr rw.1 "service.name")
      (Option.map (buildResourceWith config runtimeDetectors stderrIsTTY)
        (parseEnvResourceAttributes env)) = some (some s)
  rw [h5]
  show some (getAttr (buildResourceWith config runtimeDetectors stderrIsTTY
      envAttrs).1 "service.name") = some (some s)
  refine congrArg some ?_
  simp only [buildResourceWith]
  split
  · rw [getAttr_append_left _ _ _ (getAttr_ttyFallbackAttrs_service_name _ _)]
    exact getAttr_append_right _ _ _ _ hsvc
  · exact getAttr_append_right _ _ _ _ hsvc

/-- Claim C8 witness: `buildResource` with `serviceName: "from-config"` in
the config, an env map setting `OTEL_SERVICE_NAME: "from-env"` together with
a decodable attribute list that also sets `service.name=from-list`, and no
detectors, succeeds and yields a resource whose `service.name` is
`"from-env"`. -/
theorem buildResource_env_service_name_wins_witness :
    (buildResource
        { serviceName := some "from-config",
          env := some [("OTEL_SERVICE_NAME", "from-env"),
                       ("OTEL_RESOURCE_ATTRIBUTES", "service.name=from-list")] }
        [] false).map (fun rw => getAttr rw.1 "service.name")
      = some (some "from-env") :=
  buildResource_env_service_name_wins
    { serviceName := some "from-config",
      env := some [("OTEL_SERVICE_NAME", "from-env"),
                   ("OTEL_RESOURCE_ATTRIBUTES", "service.name=from-list")] }
    [("OTEL_SERVICE_NAME", "from-env"),
     ("OTEL_RESOURCE_ATTRIBUTES", "service.name=from-list")]
    [("service.name", "from-env")] "from-env" [] false
    rfl (by decide) (by decide) (by decide) (by decide)

end Telemetry

